import Mathlib

/-!
Token lifecycle of the `authentic` server

A shallow embedding of `internal/database` (the `users` and `refresh_tokens`
tables and the statements run on them) and of the four handlers of
`cmd/server/handlers_auth.go`.

* The database is a value of type `Store`; every statement is a function
  from a store (and the clock reading `NOW()`) to a result and a new store.
  The queries and inserts fail through what SQL itself decides: no row, or
  a violated constraint of the schema of `client.go`. The update of
  `RevokeRefreshToken`, which SQL never refuses, returns whatever error
  `ExecContext` reports; that error is an input of the model.
* The package `internal/auth` and the Unicode case table of the Go standard
  library lie outside the two packages embedded here; what they return
  enters as the fields of `Env`.
* Time is an integer count of nanoseconds, as in Go's `time.Duration`. A
  request is served at one clock reading, shared by `time.Now()` and by the
  `NOW()` of its statements.
-/

namespace Authentic

/-! ## Data model (`internal/database/models.go`) -/

/-- Instants and durations, in nanoseconds. -/
abbrev Time := Int

/-- Go's `time.Minute`. -/
def Minute : Time := 60 * 1000000000

/-- Go's `time.Hour`. -/
def Hour : Time := 60 * Minute

/-- Values of `uuid.UUID`; `0` stands for the zero value `uuid.Nil`. -/
abbrev UUID := Nat

/-- The zero value of `uuid.UUID`. -/
def uuidNil : UUID := 0

/-- Go `error` values that the modelled code can observe. -/
inductive Error where
  | ErrNoRows
  | ErrNotFound
  | uniqueViolation
  | foreignKeyViolation
  | other (msg : String)
  deriving DecidableEq, Repr

deriving instance DecidableEq for Except

structure User where
  ID : UUID
  CreatedAt : Time
  UpdatedAt : Time
  Email : String
  Password : String
  deriving DecidableEq, Repr

structure CreateUserParams where
  Email : String
  Password : String
  deriving DecidableEq, Repr

structure RefreshToken where
  Token : String
  UserID : UUID
  ExpiresAt : Time
  CreatedAt : Time
  UpdatedAt : Time
  RevokedAt : Option Time
  deriving DecidableEq, Repr

/-- The parameters of `CreateRefreshToken`. `UserID` is declared `any` in
the source; every caller passes a `uuid.UUID`. -/
structure CreateRefreshTokenParams where
  Token : String
  UserID : UUID
  ExpiresAt : Time
  deriving DecidableEq, Repr

/-- The contents of the two tables created by `autoMigrate`. -/
structure Store where
  users : List User
  refresh_tokens : List RefreshToken
  deriving DecidableEq, Repr

/-- The constraint `token TEXT PRIMARY KEY` of `refresh_tokens`. -/
def Store.primaryKey (db : Store) : Prop :=
  (db.refresh_tokens.map (fun r => r.Token)).Nodup

instance (db : Store) : Decidable db.primaryKey := by
  unfold Store.primaryKey; exact inferInstance

/-! ## `internal/database/refresh_tokens.go` -/

/-- The zero value `RefreshToken{}`. -/
def RefreshToken.zero : RefreshToken :=
  { Token := "", UserID := uuidNil, ExpiresAt := 0, CreatedAt := 0,
    UpdatedAt := 0, RevokedAt := none }

/-- The statement `INSERT INTO refresh_tokens (token, user_id, expires_at)
VALUES ($1, $2, $3) RETURNING created_at, updated_at`. The insert is refused when the primary key
`token` is taken or when `user_id` references no user; `created_at` and
`updated_at` default to `NOW()` and `revoked_at` to NULL. The value returned
starts as the zero `RefreshToken`, receives `Token` and `ExpiresAt` from the
parameters and the two scanned timestamps; the type switch on
`params.UserID` after the insert assigns nothing. -/
def CreateRefreshToken (db : Store) (now : Time) (params : CreateRefreshTokenParams) :
    Except Error (RefreshToken × Store) :=
  if db.refresh_tokens.any (fun r => r.Token == params.Token) then
    .error .uniqueViolation
  else if !db.users.any (fun u => u.ID == params.UserID) then
    .error .foreignKeyViolation
  else
    let row : RefreshToken :=
      { Token := params.Token, UserID := params.UserID, ExpiresAt := params.ExpiresAt,
        CreatedAt := now, UpdatedAt := now, RevokedAt := none }
    let rt : RefreshToken :=
      { RefreshToken.zero with
        Token := params.Token, ExpiresAt := params.ExpiresAt,
        CreatedAt := row.CreatedAt, UpdatedAt := row.UpdatedAt }
    .ok (rt, { db with refresh_tokens := db.refresh_tokens ++ [row] })

/-- The `WHERE` clause of `GetRefreshToken`:
`token = $1 AND revoked_at IS NULL AND expires_at > NOW()`. -/
def validFor (now : Time) (token : String) (r : RefreshToken) : Bool :=
  r.Token == token && r.RevokedAt.isNone && decide (now < r.ExpiresAt)

/-- The query `SELECT ... FROM refresh_tokens WHERE token = $1 AND revoked_at IS NULL
AND expires_at > NOW()`, scanned from the first row; `sql.ErrNoRows` when the
result is empty. -/
def GetRefreshToken (db : Store) (now : Time) (token : String) : Except Error RefreshToken :=
  match db.refresh_tokens.find? (validFor now token) with
  | some rt => .ok rt
  | none => .error .ErrNoRows

/-- The statement `UPDATE refresh_tokens SET revoked_at = NOW(), updated_at = NOW()
WHERE token = $1`, run through `ExecContext`, whose error is returned as it
is. `execErr` is that error: `none` when the statement was executed, and then
every row with the token is updated; the statement has no further condition
and reports nothing when no row matches. A statement that returns an error
has changed nothing. -/
def RevokeRefreshToken (execErr : Option Error) (db : Store) (now : Time) (token : String) :
    Except Error Store :=
  match execErr with
  | some err => .error err
  | none =>
    .ok { db with
          refresh_tokens := db.refresh_tokens.map (fun r =>
            if r.Token == token then { r with RevokedAt := some now, UpdatedAt := now }
            else r) }

/-! ## `internal/database/users.go` -/

/-- The query `SELECT ... FROM users WHERE email = $1`; `ErrNotFound` when empty. -/
def GetUserByEmail (db : Store) (email : String) : Except Error User :=
  match db.users.find? (fun u => u.Email == email) with
  | some u => .ok u
  | none => .error .ErrNotFound

/-- The query `SELECT ... FROM users WHERE id = $1`; `(nil, nil)` when empty. -/
def GetUser (db : Store) (id : UUID) : Except Error (Option User) :=
  .ok (db.users.find? (fun u => u.ID == id))

/-- The statement `INSERT INTO users (email, password) VALUES ($1, $2) RETURNING id,
created_at, updated_at`. `id` defaults to `gen_random_uuid()`, here the
argument `newID`; the insert is refused when `email` (UNIQUE) or `id`
(PRIMARY KEY) is taken. -/
def CreateUser (db : Store) (now : Time) (newID : UUID) (params : CreateUserParams) :
    Except Error (User × Store) :=
  if db.users.any (fun u => u.Email == params.Email) then
    .error .uniqueViolation
  else if db.users.any (fun u => u.ID == newID) then
    .error .uniqueViolation
  else
    let u : User :=
      { ID := newID, CreatedAt := now, UpdatedAt := now,
        Email := params.Email, Password := params.Password }
    .ok (u, { db with users := db.users ++ [u] })

/-! ## Collaborators outside `cmd/server` and `internal/database` -/

/-- The results of the calls a handler makes outside `cmd/server` and
`internal/database` during one request: the functions of `internal/auth`,
the rune mapping `unicode.ToLower` used by `strings.ToLower`, the value
drawn by the column default `gen_random_uuid()`, and the error, if any, that
`ExecContext` returns for the update of `RevokeRefreshToken`. -/
structure Env where
  unicodeToLower : Char → Char
  HashPassword : String → Except Error String
  CheckPasswordHash : String → String → Except Error Unit
  MakeJWT : UUID → String → Time → Except Error String
  MakeRefreshToken : Except Error String
  gen_random_uuid : UUID
  execErr : Option Error

/-- Go's `unicode.IsSpace`: the Latin-1 cases and the `White_Space` table. -/
def unicodeIsSpace (c : Char) : Bool :=
  let n := c.toNat
  (0x09 ≤ n && n ≤ 0x0d) || n == 0x20 || n == 0x85 || n == 0xA0 || n == 0x1680 ||
    (0x2000 ≤ n && n ≤ 0x200a) || n == 0x2028 || n == 0x2029 || n == 0x202f ||
    n == 0x205f || n == 0x3000

/-- Go's `strings.ToLower`: every rune is mapped by `unicode.ToLower`. -/
def ToLower (lower : Char → Char) (s : String) : String :=
  String.mk (s.data.map lower)

/-- Go's `strings.TrimSpace`: leading and trailing white space removed. -/
def TrimSpace (s : String) : String :=
  String.mk ((((s.data.dropWhile unicodeIsSpace).reverse).dropWhile unicodeIsSpace).reverse)

/-- Go's `len` on a string: the number of bytes of its UTF-8 encoding. -/
def len (s : String) : Nat := s.utf8ByteSize

/-! ## `respond.go` -/

structure userResponse where
  ID : UUID
  Email : String
  CreatedAt : Time
  UpdatedAt : Time
  deriving DecidableEq, Repr

def toUserResponse (u : User) : userResponse :=
  { ID := u.ID, Email := u.Email, CreatedAt := u.CreatedAt, UpdatedAt := u.UpdatedAt }

/-- The JSON payloads the handlers write; `empty` is a response without body. -/
inductive Payload where
  | empty
  | errorEnvelope (Error : String)
  | user (u : userResponse)
  | login (User : userResponse) (Token : String) (RefreshToken : String)
  | refresh (Token : String) (RefreshToken : String)
  deriving DecidableEq, Repr

structure Response where
  status : Nat
  payload : Payload
  deriving DecidableEq, Repr

def StatusOK : Nat := 200
def StatusCreated : Nat := 201
def StatusNoContent : Nat := 204
def StatusBadRequest : Nat := 400
def StatusUnauthorized : Nat := 401
def StatusConflict : Nat := 409
def StatusInternalServerError : Nat := 500

def respondWithJSON (status : Nat) (payload : Payload) : Response :=
  { status := status, payload := payload }

/-- The error passed to `respondWithError` is only logged; the response
carries the status and the message. -/
def respondWithError (status : Nat) (msg : String) : Response :=
  respondWithJSON status (.errorEnvelope msg)

/-! ## `cmd/server/handlers_auth.go`

Each handler receives the decoded request body, `none` when `Decode` returned
an error, and yields the response together with the store it leaves. -/

/-- The fields of `apiConfig` the handlers read besides the database. -/
structure apiConfig where
  jwtSecret : String
  port : String

structure RegisterParams where
  Email : String
  Password : String
  deriving DecidableEq, Repr

structure LoginParams where
  Password : String
  Email : String
  deriving DecidableEq, Repr

structure RefreshParams where
  RefreshToken : String
  deriving DecidableEq, Repr

structure LogoutParams where
  RefreshToken : String
  deriving DecidableEq, Repr

/-- The handler of POST /api/register. -/
def handlerRegister (env : Env) (now : Time) (db : Store) (body : Option RegisterParams) :
    Response × Store :=
  match body with
  | none => (respondWithError StatusBadRequest "invalid JSON body", db)
  | some p =>
    let email := TrimSpace (ToLower env.unicodeToLower p.Email)
    if email == "" || len p.Password < 8 then
      (respondWithError StatusBadRequest "invalid email or password too short", db)
    else
      match GetUserByEmail db email with
      | .ok _ => (respondWithError StatusConflict "email already registered", db)
      | .error err =>
        if err ≠ Error.ErrNotFound then
          (respondWithError StatusInternalServerError "lookup failed", db)
        else
          match env.HashPassword p.Password with
          | .error _ =>
            (respondWithError StatusInternalServerError "couldn't hash password", db)
          | .ok hashed =>
            match CreateUser db now env.gen_random_uuid { Email := email, Password := hashed } with
            | .error _ =>
              (respondWithError StatusInternalServerError "couldn't create user", db)
            | .ok (u, db1) => (respondWithJSON StatusCreated (.user (toUserResponse u)), db1)

/-- The handler of POST /api/login. -/
def handlerLogin (env : Env) (cfg : apiConfig) (now : Time) (db : Store)
    (body : Option LoginParams) : Response × Store :=
  match body with
  | none => (respondWithError StatusBadRequest "invalid JSON body", db)
  | some params =>
    let email := TrimSpace (ToLower env.unicodeToLower params.Email)
    match GetUserByEmail db email with
    | .error _ => (respondWithError StatusUnauthorized "incorrect email or password", db)
    | .ok user =>
      match env.CheckPasswordHash params.Password user.Password with
      | .error _ => (respondWithError StatusUnauthorized "incorrect email or password", db)
      | .ok _ =>
        match env.MakeJWT user.ID cfg.jwtSecret (15 * Minute) with
        | .error _ =>
          (respondWithError StatusInternalServerError "couldn't create access JWT", db)
        | .ok accessToken =>
          match env.MakeRefreshToken with
          | .error _ =>
            (respondWithError StatusInternalServerError "couldn't create refresh token", db)
          | .ok refreshToken =>
            match CreateRefreshToken db now
                { UserID := user.ID, Token := refreshToken,
                  ExpiresAt := now + 60 * 24 * Hour } with
            | .error _ =>
              (respondWithError StatusInternalServerError "couldn't save refresh token", db)
            | .ok (_, db1) =>
              (respondWithJSON StatusOK
                (.login (toUserResponse user) accessToken refreshToken), db1)

/-- The handler of POST /api/refresh. The error of the closing
`RevokeRefreshToken` is discarded, as in the source: the answer is 200
whether or not the old token was revoked. -/
def handlerRefresh (env : Env) (cfg : apiConfig) (now : Time) (db : Store)
    (body : Option RefreshParams) : Response × Store :=
  match body with
  | none => (respondWithError StatusBadRequest "invalid JSON body", db)
  | some p =>
    if p.RefreshToken == "" then
      (respondWithError StatusBadRequest "refresh_token required", db)
    else
      match GetRefreshToken db now p.RefreshToken with
      | .error _ => (respondWithError StatusUnauthorized "invalid refresh token", db)
      | .ok rt =>
        match GetUser db rt.UserID with
        | .error _ => (respondWithError StatusUnauthorized "user not found for token", db)
        | .ok none => (respondWithError StatusUnauthorized "user not found for token", db)
        | .ok (some u) =>
          match env.MakeJWT u.ID cfg.jwtSecret (15 * Minute) with
          | .error _ =>
            (respondWithError StatusInternalServerError "couldn't create access JWT", db)
          | .ok accessToken =>
            match env.MakeRefreshToken with
            | .error _ =>
              (respondWithError StatusInternalServerError "couldn't create refresh token", db)
            | .ok newRT =>
              match CreateRefreshToken db now
                  { UserID := u.ID, Token := newRT, ExpiresAt := now + 60 * 24 * Hour } with
              | .error _ =>
                (respondWithError StatusInternalServerError
                  "couldn't persist new refresh token", db)
              | .ok (_, db1) =>
                let db2 :=
                  match RevokeRefreshToken env.execErr db1 now rt.Token with
                  | .ok d => d
                  | .error _ => db1
                (respondWithJSON StatusOK (.refresh accessToken newRT), db2)

/-- The handler of POST /api/logout. -/
def handlerLogout (env : Env) (now : Time) (db : Store) (body : Option LogoutParams) :
    Response × Store :=
  match body with
  | none => (respondWithError StatusBadRequest "invalid JSON body", db)
  | some p =>
    if p.RefreshToken == "" then
      (respondWithError StatusBadRequest "refresh_token required", db)
    else
      match RevokeRefreshToken env.execErr db now p.RefreshToken with
      | .error _ =>
        (respondWithError StatusInternalServerError "couldn't revoke refresh token", db)
      | .ok db1 => (respondWithJSON StatusNoContent .empty, db1)

/-! ## The four routes as one transition (`main.go`) -/

/-- A request to one of the routes /api/register, /api/login, /api/refresh
and /api/logout. -/
inductive Request where
  | register (body : Option RegisterParams)
  | login (body : Option LoginParams)
  | refresh (body : Option RefreshParams)
  | logout (body : Option LogoutParams)

/-- One request together with what the outside world answers during it. -/
structure Call where
  env : Env
  now : Time
  req : Request

/-- The dispatch of `mux` on the four routes. -/
def serve (cfg : apiConfig) (db : Store) (c : Call) : Response × Store :=
  match c.req with
  | .register body => handlerRegister c.env c.now db body
  | .login body => handlerLogin c.env cfg c.now db body
  | .refresh body => handlerRefresh c.env cfg c.now db body
  | .logout body => handlerLogout c.env c.now db body

/-- The store after a sequence of requests served one after the other. -/
def run (cfg : apiConfig) (db : Store) : List Call → Store
  | [] => db
  | c :: cs => run cfg (serve cfg db c).2 cs

/-- The token names a row of `refresh_tokens`, and every row it names has
`revoked_at` set. -/
def Store.revoked (db : Store) (token : String) : Prop :=
  (∃ r ∈ db.refresh_tokens, r.Token = token) ∧
    ∀ r ∈ db.refresh_tokens, r.Token = token → r.RevokedAt ≠ none

/-! ## `cmd/server/main.go` -/

/-- The search behind `strings.Contains`: the second list occurs in the
first as a block of consecutive elements. -/
def hasInfix : List Char → List Char → Bool
  | [], sub => sub.isPrefixOf []
  | c :: cs, sub => sub.isPrefixOf (c :: cs) || hasInfix cs sub

/-- Go's `strings.Contains`: `substr` occurs within `s`. -/
def Contains (s substr : String) : Bool :=
  hasInfix s.data substr.data

/-- The database URL with `sslmode=require` added unless an `sslmode=`
setting is already present. -/
def ensureSSLModeRequire (dbURL : String) : String :=
  if Contains dbURL "sslmode=" then
    dbURL
  else
    let sep := if Contains dbURL "?" then "&" else "?"
    dbURL ++ sep ++ "sslmode=require"

/-! ## Sample data -/

/-- The ASCII part of `unicode.ToLower`. -/
def asciiToLower (c : Char) : Char :=
  if 65 ≤ c.toNat ∧ c.toNat ≤ 90 then Char.ofNat (c.toNat + 32) else c

/-- An environment in which every outside call succeeds. -/
def sampleEnv : Env :=
  { unicodeToLower := asciiToLower
    HashPassword := fun p => .ok ("hash:" ++ p)
    CheckPasswordHash := fun p h => if h = "hash:" ++ p then .ok () else .error (.other "mismatch")
    MakeJWT := fun _ _ _ => .ok "access-token"
    MakeRefreshToken := .ok "new-token"
    gen_random_uuid := 7
    execErr := none }

def sampleCfg : apiConfig := { jwtSecret := "secret", port := "8080" }

def sampleUser : User :=
  { ID := 7, CreatedAt := 0, UpdatedAt := 0, Email := "a@b.com", Password := "hash:password1" }

def sampleToken : RefreshToken :=
  { Token := "old-token", UserID := 7, ExpiresAt := 1000, CreatedAt := 0, UpdatedAt := 0,
    RevokedAt := none }

def sampleStore : Store := { users := [sampleUser], refresh_tokens := [sampleToken] }

/-- A refresh of `old-token` at clock reading 6 followed by a login at 7. -/
def sampleCalls : List Call :=
  [{ env := sampleEnv, now := 6, req := .refresh (some ⟨"old-token"⟩) },
   { env := sampleEnv, now := 7, req := .login (some ⟨"password1", "a@b.com"⟩) }]

/-- An environment whose random source repeats the token `old-token`. -/
def collidingEnv : Env := { sampleEnv with MakeRefreshToken := .ok "old-token" }

/-- An environment in which the update of `RevokeRefreshToken` is not
executed: `ExecContext` returns an error. -/
def brokenExecEnv : Env := { sampleEnv with execErr := some (.other "connection reset") }

/-- The sample store after `old-token` was revoked at clock reading 5. -/
def revokedStore : Store :=
  { users := [sampleUser],
    refresh_tokens := [{ sampleToken with RevokedAt := some 5, UpdatedAt := 5 }] }


/-! ## Facts about the statements -/

theorem validFor_iff (now : Time) (token : String) (r : RefreshToken) :
    validFor now token r = true ↔ r.Token = token ∧ r.RevokedAt = none ∧ now < r.ExpiresAt := by
  simp [validFor, and_assoc]

theorem GetRefreshToken_eq_ok (db : Store) (now : Time) (token : String) (rt : RefreshToken) :
    GetRefreshToken db now token = .ok rt ↔
      db.refresh_tokens.find? (validFor now token) = some rt := by
  unfold GetRefreshToken
  cases h : db.refresh_tokens.find? (validFor now token) <;> simp

theorem GetRefreshToken_eq_error (db : Store) (now : Time) (token : String) (e : Error) :
    GetRefreshToken db now token = .error e ↔
      e = .ErrNoRows ∧ ∀ r ∈ db.refresh_tokens, validFor now token r = false := by
  unfold GetRefreshToken
  cases h : db.refresh_tokens.find? (validFor now token) with
  | none =>
    have h2 := List.find?_eq_none.mp h
    simp only [Except.error.injEq]
    constructor
    · intro he
      exact ⟨he.symm, fun r hr => by simpa using h2 r hr⟩
    · intro he
      exact he.1.symm
  | some r =>
    have hm := List.mem_of_find?_eq_some h
    have hv := List.find?_some h
    constructor
    · intro he
      exact Except.noConfusion he
    · intro he
      rw [he.2 r hm] at hv
      exact Bool.noConfusion hv

theorem GetRefreshToken_ok_sound (db : Store) (now : Time) (token : String) (rt : RefreshToken)
    (h : GetRefreshToken db now token = .ok rt) :
    rt ∈ db.refresh_tokens ∧ rt.Token = token ∧ rt.RevokedAt = none ∧ now < rt.ExpiresAt := by
  rw [GetRefreshToken_eq_ok] at h
  exact ⟨List.mem_of_find?_eq_some h, (validFor_iff _ _ _).mp (List.find?_some h)⟩

theorem CreateRefreshToken_eq_ok (db : Store) (now : Time) (params : CreateRefreshTokenParams)
    (rt : RefreshToken) (db1 : Store) (h : CreateRefreshToken db now params = .ok (rt, db1)) :
    (∀ r ∈ db.refresh_tokens, r.Token ≠ params.Token) ∧
      (∃ u ∈ db.users, u.ID = params.UserID) ∧
      db1 = { users := db.users,
              refresh_tokens := db.refresh_tokens ++
                [{ Token := params.Token, UserID := params.UserID,
                   ExpiresAt := params.ExpiresAt, CreatedAt := now, UpdatedAt := now,
                   RevokedAt := none }] } ∧
      rt = { Token := params.Token, UserID := uuidNil, ExpiresAt := params.ExpiresAt,
             CreatedAt := now, UpdatedAt := now, RevokedAt := none } := by
  unfold CreateRefreshToken at h
  split at h
  · exact Except.noConfusion h
  · split at h
    · exact Except.noConfusion h
    · rename_i h1 h2
      simp only [Except.ok.injEq, Prod.mk.injEq] at h
      refine ⟨?_, ?_, h.2.symm, ?_⟩
      · intro r hr heq
        apply h1
        simp only [List.any_eq_true, beq_iff_eq]
        exact ⟨r, hr, heq⟩
      · simpa using h2
      · rw [← h.1]; rfl

/-! ## The shape of every run of `handlerRefresh` -/

/-- The rows of `refresh_tokens` after the update of `RevokeRefreshToken`,
when `ExecContext` reports no error. -/
theorem RevokeRefreshToken_eq (db : Store) (now : Time) (token : String) :
    RevokeRefreshToken none db now token =
      .ok { users := db.users,
            refresh_tokens := db.refresh_tokens.map (fun r =>
              if r.Token == token then { r with RevokedAt := some now, UpdatedAt := now }
              else r) } := rfl

/-- A successful `RevokeRefreshToken` is one whose statement was executed. -/
theorem RevokeRefreshToken_eq_ok (execErr : Option Error) (db : Store) (now : Time)
    (token : String) (db1 : Store) (h : RevokeRefreshToken execErr db now token = .ok db1) :
    execErr = none ∧ RevokeRefreshToken none db now token = .ok db1 := by
  cases execErr with
  | none => exact ⟨rfl, h⟩
  | some e => exact Except.noConfusion h

/-- An error response that leaves the store alone, in the form the case
analyses of the handlers use. -/
theorem error_leaf (status good : Nat) (msg : String) (db : Store) (h : status ≠ good) :
    (respondWithError status msg, db).1.status ≠ good ∧
      (∃ m, (respondWithError status msg, db).1.payload = .errorEnvelope m) ∧
      (respondWithError status msg, db).2 = db :=
  ⟨h, ⟨msg, rfl⟩, rfl⟩

/-- Either `handlerRefresh` answers with an error status and leaves the store
as it found it, or every step up to the insert succeeded, the answer is 200
and the store is the one obtained by inserting the new row and then revoking
the presented token, or by the insert alone when the revoke returned an
error. -/
theorem handlerRefresh_cases (env : Env) (cfg : apiConfig) (now : Time) (db : Store)
    (body : Option RefreshParams) :
    ((handlerRefresh env cfg now db body).1.status ≠ StatusOK ∧
      (∃ msg, (handlerRefresh env cfg now db body).1.payload = .errorEnvelope msg) ∧
      (handlerRefresh env cfg now db body).2 = db) ∨
    ∃ t rt u access newRT ret db1 db2,
      body = some ⟨t⟩ ∧ t ≠ "" ∧
      GetRefreshToken db now t = .ok rt ∧
      GetUser db rt.UserID = .ok (some u) ∧
      env.MakeJWT u.ID cfg.jwtSecret (15 * Minute) = .ok access ∧
      env.MakeRefreshToken = .ok newRT ∧
      CreateRefreshToken db now
        { UserID := u.ID, Token := newRT, ExpiresAt := now + 60 * 24 * Hour } = .ok (ret, db1) ∧
      (RevokeRefreshToken env.execErr db1 now rt.Token = .ok db2 ∨
        ((∃ e, env.execErr = some e) ∧ db2 = db1)) ∧
      handlerRefresh env cfg now db body =
        (respondWithJSON StatusOK (.refresh access newRT), db2) := by
  cases body with
  | none => left; exact error_leaf StatusBadRequest _ "invalid JSON body" db (by decide)
  | some p =>
    obtain ⟨t⟩ := p
    by_cases hne : t = ""
    · left
      simp only [handlerRefresh, hne, beq_self_eq_true, if_true]
      (refine ⟨?_, ⟨_, rfl⟩, ?_⟩ <;> first | rfl | trivial)
    have hb : (t == "") = false := by simpa using hne
    cases hget : GetRefreshToken db now t with
    | error e =>
      left
      simp only [handlerRefresh, hb, hget, Bool.false_eq_true, if_false]
      (refine ⟨?_, ⟨_, rfl⟩, ?_⟩ <;> first | rfl | trivial)
    | ok rt =>
    cases huser : GetUser db rt.UserID with
    | error e =>
      left
      simp only [handlerRefresh, hb, hget, huser, Bool.false_eq_true, if_false]
      (refine ⟨?_, ⟨_, rfl⟩, ?_⟩ <;> first | rfl | trivial)
    | ok ou =>
    cases ou with
    | none =>
      left
      simp only [handlerRefresh, hb, hget, huser, Bool.false_eq_true, if_false]
      (refine ⟨?_, ⟨_, rfl⟩, ?_⟩ <;> first | rfl | trivial)
    | some u =>
    cases hjwt : env.MakeJWT u.ID cfg.jwtSecret (15 * Minute) with
    | error e =>
      left
      simp only [handlerRefresh, hb, hget, huser, hjwt, Bool.false_eq_true, if_false]
      (refine ⟨?_, ⟨_, rfl⟩, ?_⟩ <;> first | rfl | trivial)
    | ok access =>
    rcases hnew : env.MakeRefreshToken with e | newRT
    · left
      simp only [handlerRefresh, hb, hget, huser, hjwt, hnew, Bool.false_eq_true, if_false]
      (refine ⟨?_, ⟨_, rfl⟩, ?_⟩ <;> first | rfl | trivial)
    cases hcreate : CreateRefreshToken db now
        { UserID := u.ID, Token := newRT, ExpiresAt := now + 60 * 24 * Hour } with
    | error e =>
      left
      simp only [handlerRefresh, hb, hget, huser, hjwt, hnew, hcreate, Bool.false_eq_true, if_false]
      (refine ⟨?_, ⟨_, rfl⟩, ?_⟩ <;> first | rfl | trivial)
    | ok res =>
      obtain ⟨ret, db1⟩ := res
      right
      cases hexec : env.execErr with
      | none =>
        refine ⟨t, rt, u, access, newRT, ret, db1, _, rfl, hne, hget, huser, hjwt, rfl,
          hcreate, Or.inl (RevokeRefreshToken_eq db1 now rt.Token), ?_⟩
        simp only [handlerRefresh, hb, hget, huser, hjwt, hnew, hcreate, hexec,
          RevokeRefreshToken, Bool.false_eq_true, if_false]
      | some e =>
        refine ⟨t, rt, u, access, newRT, ret, db1, db1, rfl, hne, hget, huser, hjwt, rfl,
          hcreate, Or.inr ⟨⟨e, rfl⟩, rfl⟩, ?_⟩
        simp only [handlerRefresh, hb, hget, huser, hjwt, hnew, hcreate, hexec,
          RevokeRefreshToken, Bool.false_eq_true, if_false]

/-! ## Rotation -/

/-- After the update of `RevokeRefreshToken` no row carrying the revoked
token passes the filter of `GetRefreshToken`, at any clock reading. -/
theorem revoked_rows_invalid (rows : List RefreshToken) (now later : Time) (token : String) :
    ∀ r ∈ rows.map (fun r =>
        if r.Token == token then { r with RevokedAt := some now, UpdatedAt := now } else r),
      validFor later token r = false := by
  intro r hr
  obtain ⟨a, _, rfl⟩ := List.mem_map.mp hr
  by_cases ha : a.Token = token
  · simp [ha, validFor]
  · have hb : (a.Token == token) = false := by simpa using ha
    simp [hb, validFor, ha]

/-- A row inserted under a fresh key is what `GetRefreshToken` finds under
that key after another key has been revoked, as long as it has not expired. -/
theorem find_inserted_after_revoke (rows : List RefreshToken) (row : RefreshToken)
    (now later : Time) (token : String)
    (hfresh : ∀ r ∈ rows, r.Token ≠ row.Token) (hne : row.Token ≠ token)
    (hnull : row.RevokedAt = none) (hlater : later < row.ExpiresAt) :
    ((rows ++ [row]).map (fun r =>
        if r.Token == token then { r with RevokedAt := some now, UpdatedAt := now }
        else r)).find? (validFor later row.Token) = some row := by
  have hb : (row.Token == token) = false := by simpa using hne
  have hv : validFor later row.Token row = true := (validFor_iff _ _ _).mpr ⟨rfl, hnull, hlater⟩
  have hnone : (rows.map (fun r =>
        if r.Token == token then { r with RevokedAt := some now, UpdatedAt := now }
        else r)).find? (validFor later row.Token) = none := by
    rw [List.find?_eq_none]
    intro r hr
    obtain ⟨a, ha, rfl⟩ := List.mem_map.mp hr
    have hat := hfresh a ha
    by_cases hk : a.Token = token
    · simp [hk, validFor]
    · have hkb : (a.Token == token) = false := by simpa using hk
      simp [hkb, validFor, hat]
  rw [List.map_append, List.find?_append, hnone]
  simp [hne, hv]

/-- A row inserted under a fresh key is found under that key exactly while
it has not expired. -/
theorem find_inserted (rows : List RefreshToken) (row : RefreshToken) (later : Time)
    (hfresh : ∀ r ∈ rows, r.Token ≠ row.Token) (hnull : row.RevokedAt = none) :
    (later < row.ExpiresAt →
      (rows ++ [row]).find? (validFor later row.Token) = some row) ∧
    (row.ExpiresAt ≤ later →
      ∀ r ∈ rows ++ [row], validFor later row.Token r = false) := by
  constructor
  · intro hlater
    have hnone : rows.find? (validFor later row.Token) = none := by
      rw [List.find?_eq_none]
      intro r hr hv
      exact hfresh r hr ((validFor_iff _ _ _).mp hv).1
    have hv : validFor later row.Token row = true :=
      (validFor_iff _ _ _).mpr ⟨rfl, hnull, hlater⟩
    rw [List.find?_append, hnone]
    simp [hv]
  · intro hexp r hr
    cases hv : validFor later row.Token r with
    | false => rfl
    | true =>
      have h3 := (validFor_iff _ _ _).mp hv
      rcases List.mem_append.mp hr with hold | hnew
      · exact absurd h3.1 (hfresh r hold)
      · rw [List.mem_singleton] at hnew
        subst hnew
        exact absurd h3.2.2 (not_lt.mpr hexp)

/-- The store left by a rotation whose revoke was executed: the row inserted
for the new token is what `GetRefreshToken` returns under that token until
its expiry, and the presented token is no longer found at any clock reading. -/
theorem rotated_store_lookup (db db1 db2 : Store) (now : Time) (t newRT : String) (uid : UUID)
    (rt ret : RefreshToken)
    (hget : GetRefreshToken db now t = .ok rt)
    (hcreate : CreateRefreshToken db now
      { UserID := uid, Token := newRT, ExpiresAt := now + 60 * 24 * Hour } = .ok (ret, db1))
    (hrev : RevokeRefreshToken none db1 now rt.Token = .ok db2) :
    (∀ later, later < now + 60 * 24 * Hour →
      GetRefreshToken db2 later newRT =
        .ok { Token := newRT, UserID := uid, ExpiresAt := now + 60 * 24 * Hour,
              CreatedAt := now, UpdatedAt := now, RevokedAt := none }) ∧
    (∀ later, GetRefreshToken db2 later t = .error .ErrNoRows) := by
  obtain ⟨hrtmem, hrttok, _, _⟩ := GetRefreshToken_ok_sound db now t rt hget
  obtain ⟨hfresh, _, hdb1, _⟩ := CreateRefreshToken_eq_ok db now _ ret db1 hcreate
  rw [RevokeRefreshToken_eq] at hrev
  simp only [Except.ok.injEq] at hrev
  have hne : newRT ≠ t := by
    intro hc
    exact hfresh rt hrtmem (hrttok.trans hc.symm)
  constructor
  · intro later hlater
    rw [GetRefreshToken_eq_ok, ← hrev, hdb1, hrttok]
    exact find_inserted_after_revoke db.refresh_tokens
      { Token := newRT, UserID := uid, ExpiresAt := now + 60 * 24 * Hour, CreatedAt := now,
        UpdatedAt := now, RevokedAt := none } now later t hfresh hne rfl hlater
  · intro later
    rw [GetRefreshToken_eq_error, ← hrev, hrttok]
    exact ⟨rfl, revoked_rows_invalid db1.refresh_tokens now later t⟩

/-- The store left by the insert of a rotation alone: the new row is found
under the new token until its expiry, and the presented token is found as
before. -/
theorem inserted_store_lookup (db db1 : Store) (now : Time) (t newRT : String) (uid : UUID)
    (rt ret : RefreshToken)
    (hget : GetRefreshToken db now t = .ok rt)
    (hcreate : CreateRefreshToken db now
      { UserID := uid, Token := newRT, ExpiresAt := now + 60 * 24 * Hour } = .ok (ret, db1)) :
    (∀ later, later < now + 60 * 24 * Hour →
      GetRefreshToken db1 later newRT =
        .ok { Token := newRT, UserID := uid, ExpiresAt := now + 60 * 24 * Hour,
              CreatedAt := now, UpdatedAt := now, RevokedAt := none }) ∧
    GetRefreshToken db1 now t = .ok rt := by
  obtain ⟨hfresh, _, hdb1, _⟩ := CreateRefreshToken_eq_ok db now _ ret db1 hcreate
  constructor
  · intro later hlater
    rw [GetRefreshToken_eq_ok, hdb1]
    exact (find_inserted db.refresh_tokens
      { Token := newRT, UserID := uid, ExpiresAt := now + 60 * 24 * Hour, CreatedAt := now,
        UpdatedAt := now, RevokedAt := none } later hfresh rfl).1 hlater
  · rw [GetRefreshToken_eq_ok] at hget ⊢
    rw [hdb1]
    simp only [List.find?_append, hget, Option.or_some]

/-- C1, as stated, fails. When `ExecContext` returns an error for the update
of `RevokeRefreshToken`, `handlerRefresh` on `old-token` still answers 200 with
the new refresh token `new-token`, and `GetRefreshToken` still returns the row
of `old-token`: the token was not revoked. -/
theorem refresh_succeeds_without_revoking :
    (handlerRefresh brokenExecEnv sampleCfg 5 sampleStore (some ⟨"old-token"⟩)).1 =
        respondWithJSON StatusOK (.refresh "access-token" "new-token") ∧
      GetRefreshToken (handlerRefresh brokenExecEnv sampleCfg 5 sampleStore
        (some ⟨"old-token"⟩)).2 5 "old-token" = .ok sampleToken := by
  decide

/-- C1, amended. When `handlerRefresh` on the token `t` answers 200 with the
new refresh token `tnew`, then in the store it leaves `GetRefreshToken tnew`
succeeds at the same clock reading, and at every later reading before the
sixty days are over. When the update of `RevokeRefreshToken` returned no
error, `GetRefreshToken t` fails with the no-rows error at every clock
reading. When it returned an error, which the handler discards,
`GetRefreshToken t` still succeeds. -/
theorem refresh_rotation_forward_if_revoked (env : Env) (cfg : apiConfig) (now : Time)
    (db : Store) (t access tnew : String)
    (h : (handlerRefresh env cfg now db (some ⟨t⟩)).1 =
      respondWithJSON StatusOK (.refresh access tnew)) :
    (∃ r, GetRefreshToken (handlerRefresh env cfg now db (some ⟨t⟩)).2 now tnew = .ok r) ∧
    (∀ later, later < now + 60 * 24 * Hour →
      ∃ r, GetRefreshToken (handlerRefresh env cfg now db (some ⟨t⟩)).2 later tnew = .ok r) ∧
    (env.execErr = none → ∀ later,
      GetRefreshToken (handlerRefresh env cfg now db (some ⟨t⟩)).2 later t =
        .error .ErrNoRows) ∧
    (∀ e, env.execErr = some e →
      ∃ r, GetRefreshToken (handlerRefresh env cfg now db (some ⟨t⟩)).2 now t = .ok r) := by
  rcases handlerRefresh_cases env cfg now db (some ⟨t⟩) with hfail | hok
  · rw [h] at hfail
    exact absurd rfl hfail.1
  · obtain ⟨t0, rt, u, access0, newRT, ret, db1, db2, hbody, _, hget, _, _, _, hcreate, hrev,
      heq⟩ := hok
    have ht : t0 = t := by
      simp only [Option.some.injEq, RefreshParams.mk.injEq] at hbody
      exact hbody.symm
    subst ht
    rw [heq] at h
    have hnew : newRT = tnew := by
      simp only [respondWithJSON, Response.mk.injEq, Payload.refresh.injEq, true_and] at h
      exact h.2
    subst hnew
    rw [heq]
    have hpos : now < now + 60 * 24 * Hour := lt_add_of_pos_right now (by decide)
    rcases hrev with hrun | ⟨⟨e0, he0⟩, hsame⟩
    · obtain ⟨hnone, hrun0⟩ := RevokeRefreshToken_eq_ok _ _ _ _ _ hrun
      obtain ⟨hfound, hgone⟩ := rotated_store_lookup db db1 db2 now t0 newRT u.ID rt ret hget
        hcreate hrun0
      refine ⟨⟨_, hfound now hpos⟩, fun later hlater => ⟨_, hfound later hlater⟩,
        fun _ => hgone, ?_⟩
      intro e he
      rw [hnone] at he
      exact Option.noConfusion he
    · obtain ⟨hfound, hkept⟩ := inserted_store_lookup db db1 now t0 newRT u.ID rt ret hget
        hcreate
      simp only [hsame]
      refine ⟨⟨_, hfound now hpos⟩, fun later hlater => ⟨_, hfound later hlater⟩, ?_,
        fun _ _ => ⟨rt, hkept⟩⟩
      intro hnone
      rw [he0] at hnone
      exact Option.noConfusion hnone

/-- In the sample environment the update runs: the refresh of `old-token`
answers 200, `new-token` is found and `old-token` is not. In the environment
whose update fails the answer is 200 as well and `old-token` is still found. -/
theorem refresh_rotation_forward_if_revoked_witness :
    (handlerRefresh sampleEnv sampleCfg 5 sampleStore (some ⟨"old-token"⟩)).1 =
        respondWithJSON StatusOK (.refresh "access-token" "new-token") ∧
      sampleEnv.execErr = none ∧
      (∃ r, GetRefreshToken (handlerRefresh sampleEnv sampleCfg 5 sampleStore
        (some ⟨"old-token"⟩)).2 5 "new-token" = .ok r) ∧
      GetRefreshToken (handlerRefresh sampleEnv sampleCfg 5 sampleStore
        (some ⟨"old-token"⟩)).2 5 "old-token" = .error .ErrNoRows ∧
      (handlerRefresh brokenExecEnv sampleCfg 5 sampleStore (some ⟨"old-token"⟩)).1 =
        respondWithJSON StatusOK (.refresh "access-token" "new-token") ∧
      brokenExecEnv.execErr = some (.other "connection reset") ∧
      (∃ r, GetRefreshToken (handlerRefresh brokenExecEnv sampleCfg 5 sampleStore
        (some ⟨"old-token"⟩)).2 5 "old-token" = .ok r) :=
  ⟨by decide, rfl,
    (refresh_rotation_forward_if_revoked sampleEnv sampleCfg 5 sampleStore "old-token"
      "access-token" "new-token" (by decide)).1,
    (refresh_rotation_forward_if_revoked sampleEnv sampleCfg 5 sampleStore "old-token"
      "access-token" "new-token" (by decide)).2.2.1 rfl 5,
    by decide, rfl,
    (refresh_rotation_forward_if_revoked brokenExecEnv sampleCfg 5 sampleStore "old-token"
      "access-token" "new-token" (by decide)).2.2.2 (.other "connection reset") rfl⟩

/-! ## Lookup -/

/-- C3, as stated, fails. The row `old-token` of `revokedStore` carries
`revoked_at = 5`; revoking it again at clock reading 9 succeeds but replaces
`revoked_at` and `updated_at` by 9, so the store is not left unchanged and
revoking twice (at 5, then at 9) differs from revoking once (at 5). -/
theorem revoke_overwrites_revoked_at :
    RevokeRefreshToken none sampleStore 5 "old-token" = .ok revokedStore ∧
      (∃ r ∈ revokedStore.refresh_tokens, r.Token = "old-token" ∧ r.RevokedAt = some 5) ∧
      RevokeRefreshToken none revokedStore 9 "old-token" =
        .ok { users := [sampleUser],
              refresh_tokens := [{ sampleToken with RevokedAt := some 9, UpdatedAt := 9 }] } ∧
      RevokeRefreshToken none revokedStore 9 "old-token" ≠ .ok revokedStore := by
  decide

/-- C3, amended. `RevokeRefreshToken s` returns the error of `ExecContext`
when there is one, whatever `s` names. When there is none it returns no error,
whether `s` names no row, a valid row or a revoked one: it leaves the users
alone, keeps every row whose token is not `s` as it is and leaves every row
whose token is `s` with `revoked_at = now` and `updated_at = now`, whether or
not `revoked_at` was set before. When `s` names no row the store is unchanged.
Revoking again at the same clock reading changes nothing; revoking again at
another reading gives the store of a single revoke at that reading. After a
revoke `GetRefreshToken s` fails at every clock reading. -/
theorem revoke_error_and_overwriting (execErr : Option Error) (db : Store) (now : Time)
    (s : String) :
    (∀ e, execErr = some e → RevokeRefreshToken execErr db now s = .error e) ∧
    (execErr = none →
      ∃ db1, RevokeRefreshToken execErr db now s = .ok db1 ∧
        db1.users = db.users ∧
        List.Forall₂ (fun r r1 =>
          if r.Token = s then r1 = { r with RevokedAt := some now, UpdatedAt := now }
          else r1 = r) db.refresh_tokens db1.refresh_tokens ∧
        ((∀ r ∈ db.refresh_tokens, r.Token ≠ s) → db1 = db) ∧
        RevokeRefreshToken none db1 now s = .ok db1 ∧
        (∀ now2, RevokeRefreshToken none db1 now2 s = RevokeRefreshToken none db now2 s) ∧
        (∀ later, GetRefreshToken db1 later s = .error .ErrNoRows)) := by
  constructor
  · intro e he
    rw [he]
    rfl
  intro hnone
  subst hnone
  refine ⟨_, RevokeRefreshToken_eq db now s, rfl, ?_, ?_, ?_, ?_, ?_⟩
  · simp only
    induction db.refresh_tokens with
    | nil => exact List.Forall₂.nil
    | cons a l ih =>
      rw [List.map_cons]
      refine List.Forall₂.cons ?_ ih
      by_cases ha : a.Token = s <;> simp [ha]
  · intro hno
    obtain ⟨users, rows⟩ := db
    simp only [Store.mk.injEq, true_and]
    have : ∀ r ∈ rows, (if r.Token == s then
        { r with RevokedAt := some now, UpdatedAt := now } else r) = r := by
      intro r hr
      have hb : (r.Token == s) = false := by simpa using hno r hr
      simp [hb]
    calc rows.map _ = rows.map id := List.map_congr_left this
      _ = rows := List.map_id rows
  · simp only [RevokeRefreshToken, Except.ok.injEq, Store.mk.injEq, true_and, List.map_map]
    apply List.map_congr_left
    intro r _
    by_cases hr : r.Token = s <;> simp [hr]
  · intro now2
    simp only [RevokeRefreshToken, Except.ok.injEq, Store.mk.injEq, true_and, List.map_map]
    apply List.map_congr_left
    intro r _
    by_cases hr : r.Token = s <;> simp [hr]
  · intro later
    rw [GetRefreshToken_eq_error]
    exact ⟨rfl, revoked_rows_invalid db.refresh_tokens now later s⟩

/-- Three runs on sample data. No row of the sample store is named `unknown`:
revoking it returns the sample store as it was. The row `old-token` of
`revokedStore` is already revoked: revoking it again succeeds and the token
stays unusable. And when `ExecContext` fails, the revoke of `old-token`
returns that error. -/
theorem revoke_error_and_overwriting_witness :
    (∀ r ∈ sampleStore.refresh_tokens, r.Token ≠ "unknown") ∧
      RevokeRefreshToken none sampleStore 9 "unknown" = .ok sampleStore ∧
      (∃ db1, RevokeRefreshToken none revokedStore 9 "old-token" = .ok db1 ∧
        GetRefreshToken db1 9 "old-token" = .error .ErrNoRows) ∧
      RevokeRefreshToken (some (.other "connection reset")) sampleStore 9 "old-token" =
        .error (.other "connection reset") :=
  ⟨by decide,
    match (revoke_error_and_overwriting none sampleStore 9 "unknown").2 rfl with
    | ⟨_, h1, _, _, h4, _⟩ => h1.trans (congrArg Except.ok (h4 (by decide))),
    match (revoke_error_and_overwriting none revokedStore 9 "old-token").2 rfl with
    | ⟨db1, h1, _, _, _, _, _, h7⟩ => ⟨db1, h1, h7 9⟩,
    (revoke_error_and_overwriting (some (.other "connection reset")) sampleStore 9
      "old-token").1 (.other "connection reset") rfl⟩

/-! ## The shape of every run of the other handlers -/

/-- Either `handlerLogin` answers with an error status and leaves the store
as it found it, or every step succeeded and the store is the one obtained by
inserting the new refresh-token row. -/
theorem handlerLogin_cases (env : Env) (cfg : apiConfig) (now : Time) (db : Store)
    (body : Option LoginParams) :
    ((handlerLogin env cfg now db body).1.status ≠ StatusOK ∧
      (∃ msg, (handlerLogin env cfg now db body).1.payload = .errorEnvelope msg) ∧
      (handlerLogin env cfg now db body).2 = db) ∨
    ∃ params user access refreshToken ret db1,
      body = some params ∧
      GetUserByEmail db (TrimSpace (ToLower env.unicodeToLower params.Email)) = .ok user ∧
      env.CheckPasswordHash params.Password user.Password = .ok () ∧
      env.MakeJWT user.ID cfg.jwtSecret (15 * Minute) = .ok access ∧
      env.MakeRefreshToken = .ok refreshToken ∧
      CreateRefreshToken db now
        { UserID := user.ID, Token := refreshToken, ExpiresAt := now + 60 * 24 * Hour } =
        .ok (ret, db1) ∧
      handlerLogin env cfg now db body =
        (respondWithJSON StatusOK (.login (toUserResponse user) access refreshToken), db1) := by
  cases body with
  | none => left; exact error_leaf StatusBadRequest _ "invalid JSON body" db (by decide)
  | some params =>
    cases huser : GetUserByEmail db (TrimSpace (ToLower env.unicodeToLower params.Email)) with
    | error e =>
      left
      simp only [handlerLogin, huser]
      (refine ⟨?_, ⟨_, rfl⟩, ?_⟩ <;> first | rfl | trivial)
    | ok user =>
    cases hcheck : env.CheckPasswordHash params.Password user.Password with
    | error e =>
      left
      simp only [handlerLogin, huser, hcheck]
      (refine ⟨?_, ⟨_, rfl⟩, ?_⟩ <;> first | rfl | trivial)
    | ok _ =>
    cases hjwt : env.MakeJWT user.ID cfg.jwtSecret (15 * Minute) with
    | error e =>
      left
      simp only [handlerLogin, huser, hcheck, hjwt]
      (refine ⟨?_, ⟨_, rfl⟩, ?_⟩ <;> first | rfl | trivial)
    | ok access =>
    rcases hnew : env.MakeRefreshToken with e | refreshToken
    · left
      simp only [handlerLogin, huser, hcheck, hjwt, hnew]
      (refine ⟨?_, ⟨_, rfl⟩, ?_⟩ <;> first | rfl | trivial)
    cases hcreate : CreateRefreshToken db now
        { UserID := user.ID, Token := refreshToken, ExpiresAt := now + 60 * 24 * Hour } with
    | error e =>
      left
      simp only [handlerLogin, huser, hcheck, hjwt, hnew, hcreate]
      (refine ⟨?_, ⟨_, rfl⟩, ?_⟩ <;> first | rfl | trivial)
    | ok res =>
      obtain ⟨ret, db1⟩ := res
      right
      refine ⟨params, user, access, refreshToken, ret, db1, rfl, huser, hcheck, hjwt, rfl,
        hcreate, ?_⟩
      simp only [handlerLogin, huser, hcheck, hjwt, hnew, hcreate]

/-- Either `handlerRegister` answers with an error status and leaves the
store as it found it, or every step succeeded and the store is the one
obtained by inserting the new user under the normalised email. -/
theorem handlerRegister_cases (env : Env) (now : Time) (db : Store)
    (body : Option RegisterParams) :
    ((handlerRegister env now db body).1.status ≠ StatusCreated ∧
      (∃ msg, (handlerRegister env now db body).1.payload = .errorEnvelope msg) ∧
      (handlerRegister env now db body).2 = db) ∨
    ∃ p hashed u db1,
      body = some p ∧
      TrimSpace (ToLower env.unicodeToLower p.Email) ≠ "" ∧
      8 ≤ len p.Password ∧
      GetUserByEmail db (TrimSpace (ToLower env.unicodeToLower p.Email)) = .error .ErrNotFound ∧
      env.HashPassword p.Password = .ok hashed ∧
      CreateUser db now env.gen_random_uuid
        { Email := TrimSpace (ToLower env.unicodeToLower p.Email), Password := hashed } =
        .ok (u, db1) ∧
      handlerRegister env now db body =
        (respondWithJSON StatusCreated (.user (toUserResponse u)), db1) := by
  cases body with
  | none => left; exact error_leaf StatusBadRequest _ "invalid JSON body" db (by decide)
  | some p =>
    cases hbad : (TrimSpace (ToLower env.unicodeToLower p.Email) == "" ||
        decide (len p.Password < 8)) with
    | true =>
      left
      simp only [handlerRegister, hbad, if_true]
      (refine ⟨?_, ⟨_, rfl⟩, ?_⟩ <;> first | rfl | trivial)
    | false =>
    have hgood := hbad
    simp only [Bool.or_eq_false_iff, beq_eq_false_iff_ne, ne_eq, decide_eq_false_iff_not,
      not_lt] at hgood
    rcases huser : GetUserByEmail db (TrimSpace (ToLower env.unicodeToLower p.Email)) with e | u0
    · by_cases he : e = Error.ErrNotFound
      · subst he
        cases hhash : env.HashPassword p.Password with
        | error e =>
          left
          simp only [handlerRegister, hbad, huser, hhash, Bool.false_eq_true, if_false, ne_eq,
            not_true_eq_false]
          (refine ⟨?_, ⟨_, rfl⟩, ?_⟩ <;> first | rfl | trivial)
        | ok hashed =>
        cases hcreate : CreateUser db now env.gen_random_uuid
            { Email := TrimSpace (ToLower env.unicodeToLower p.Email), Password := hashed } with
        | error e =>
          left
          simp only [handlerRegister, hbad, huser, hhash, hcreate, Bool.false_eq_true, if_false,
            ne_eq, not_true_eq_false]
          (refine ⟨?_, ⟨_, rfl⟩, ?_⟩ <;> first | rfl | trivial)
        | ok res =>
          obtain ⟨u, db1⟩ := res
          right
          refine ⟨p, hashed, u, db1, rfl, hgood.1, hgood.2, huser, hhash, hcreate, ?_⟩
          simp only [handlerRegister, hbad, huser, hhash, hcreate, Bool.false_eq_true, if_false,
            ne_eq, not_true_eq_false]
      · left
        simp only [handlerRegister, hbad, huser, Bool.false_eq_true, if_false, ne_eq, he,
          not_false_eq_true, if_true]
        (refine ⟨?_, ⟨_, rfl⟩, ?_⟩ <;> first | rfl | trivial)
    · left
      simp only [handlerRegister, hbad, huser, Bool.false_eq_true, if_false]
      (refine ⟨?_, ⟨_, rfl⟩, ?_⟩ <;> first | rfl | trivial)

/-! ## Revocation is one-way -/

theorem CreateUser_eq_ok (db : Store) (now : Time) (newID : UUID) (params : CreateUserParams)
    (u : User) (db1 : Store) (h : CreateUser db now newID params = .ok (u, db1)) :
    (∀ v ∈ db.users, v.Email ≠ params.Email) ∧
      u = { ID := newID, CreatedAt := now, UpdatedAt := now, Email := params.Email,
            Password := params.Password } ∧
      db1 = { users := db.users ++ [u], refresh_tokens := db.refresh_tokens } := by
  unfold CreateUser at h
  split at h
  · exact Except.noConfusion h
  · split at h
    · exact Except.noConfusion h
    · rename_i h1 _
      simp only [Except.ok.injEq, Prod.mk.injEq] at h
      refine ⟨?_, h.1.symm, ?_⟩
      · intro v hv heq
        apply h1
        simp only [List.any_eq_true, beq_iff_eq]
        exact ⟨v, hv, heq⟩
      · rw [← h.2, ← h.1]

theorem revoked_lookup (db : Store) (t : String) (later : Time) (hr : db.revoked t) :
    GetRefreshToken db later t = .error .ErrNoRows := by
  rw [GetRefreshToken_eq_error]
  refine ⟨rfl, fun r hmem => ?_⟩
  cases hv : validFor later t r with
  | false => rfl
  | true =>
    have := (validFor_iff later t r).mp hv
    exact absurd this.2.1 (hr.2 r hmem this.1)

theorem revoked_of_create (db : Store) (now : Time) (params : CreateRefreshTokenParams)
    (ret : RefreshToken) (db1 : Store) (t : String)
    (h : CreateRefreshToken db now params = .ok (ret, db1)) (hr : db.revoked t) :
    db1.revoked t := by
  obtain ⟨hfresh, _, hdb1, _⟩ := CreateRefreshToken_eq_ok db now params ret db1 h
  obtain ⟨⟨r0, hmem0, htok0⟩, hall⟩ := hr
  subst hdb1
  refine ⟨⟨r0, List.mem_append_left _ hmem0, htok0⟩, ?_⟩
  intro r hmem htok
  rcases List.mem_append.mp hmem with hold | hnew
  · exact hall r hold htok
  · rw [List.mem_singleton] at hnew
    subst hnew
    exact absurd (htok0.trans htok.symm) (hfresh r0 hmem0)

theorem revoked_of_revoke (db : Store) (now : Time) (s t : String) (db1 : Store)
    (h : RevokeRefreshToken none db now s = .ok db1) (hr : db.revoked t) : db1.revoked t := by
  rw [RevokeRefreshToken_eq] at h
  simp only [Except.ok.injEq] at h
  subst h
  obtain ⟨⟨r0, hmem0, htok0⟩, hall⟩ := hr
  constructor
  · refine ⟨_, List.mem_map.mpr ⟨r0, hmem0, rfl⟩, ?_⟩
    by_cases h0 : r0.Token = s
    · simp only [h0, beq_self_eq_true, if_true]
      exact h0.symm.trans htok0
    · have h0b : (r0.Token == s) = false := by simpa using h0
      simp only [h0b, Bool.false_eq_true, if_false]
      exact htok0
  · intro r hmem htok
    obtain ⟨a, ha, rfl⟩ := List.mem_map.mp hmem
    by_cases hk : a.Token = s
    · simp [hk]
    · have hkb : (a.Token == s) = false := by simpa using hk
      simp only [hkb, Bool.false_eq_true, if_false] at htok ⊢
      exact hall a ha htok

theorem revoked_of_serve (cfg : apiConfig) (db : Store) (c : Call) (t : String)
    (hr : db.revoked t) : (serve cfg db c).2.revoked t := by
  obtain ⟨env, now, req⟩ := c
  cases req with
  | register body =>
    simp only [serve]
    rcases handlerRegister_cases env now db body with hfail | hok
    · rw [hfail.2.2]; exact hr
    · obtain ⟨p, hashed, u, db1, _, _, _, _, _, hcreate, heq⟩ := hok
      rw [heq]
      obtain ⟨_, _, hdb1⟩ := CreateUser_eq_ok db now _ _ u db1 hcreate
      subst hdb1
      exact hr
  | login body =>
    simp only [serve]
    rcases handlerLogin_cases env cfg now db body with hfail | hok
    · rw [hfail.2.2]; exact hr
    · obtain ⟨params, user, access, refreshToken, ret, db1, _, _, _, _, _, hcreate, heq⟩ := hok
      rw [heq]
      exact revoked_of_create db now _ ret db1 t hcreate hr
  | refresh body =>
    simp only [serve]
    rcases handlerRefresh_cases env cfg now db body with hfail | hok
    · rw [hfail.2.2]; exact hr
    · obtain ⟨t0, rt, u, access, newRT, ret, db1, db2, _, _, _, _, _, _, hcreate, hrev, heq⟩ := hok
      rw [heq]
      have hr1 := revoked_of_create db now _ ret db1 t hcreate hr
      rcases hrev with hrun | ⟨_, hsame⟩
      · exact revoked_of_revoke db1 now rt.Token t db2
          (RevokeRefreshToken_eq_ok _ _ _ _ _ hrun).2 hr1
      · rw [hsame]; exact hr1
  | logout body =>
    simp only [serve]
    cases body with
    | none => exact hr
    | some p =>
      by_cases hp : p.RefreshToken = ""
      · simp only [handlerLogout, hp, beq_self_eq_true, if_true]; exact hr
      · have hb : (p.RefreshToken == "") = false := by simpa using hp
        cases hexec : env.execErr with
        | some e =>
          simp only [handlerLogout, hb, Bool.false_eq_true, if_false, hexec, RevokeRefreshToken]
          exact hr
        | none =>
          simp only [handlerLogout, hb, Bool.false_eq_true, if_false, hexec,
            RevokeRefreshToken_eq]
          exact revoked_of_revoke db now p.RefreshToken t _ (RevokeRefreshToken_eq _ _ _) hr

theorem revoked_of_run (cfg : apiConfig) (calls : List Call) :
    ∀ (db : Store) (t : String), db.revoked t → (run cfg db calls).revoked t := by
  induction calls with
  | nil => intro db t hr; exact hr
  | cons c cs ih =>
    intro db t hr
    exact ih _ t (revoked_of_serve cfg db c t hr)

/-- C4. Revocation is one-way. In a store that respects the primary key, once
the row of a token `t` has `revoked_at` set, `GetRefreshToken t` fails after
every sequence of register, login, refresh and logout requests, whatever the
outside world answers and at every clock reading. And in every store, when
logout of `t` answers 204, a refresh of `t` served next answers 401 with an
error body and leaves the store as the logout left it. -/
theorem revocation_is_one_way (cfg : apiConfig) :
    (∀ (db : Store) (r : RefreshToken), db.primaryKey → r ∈ db.refresh_tokens →
      r.RevokedAt ≠ none →
      ∀ (calls : List Call) (later : Time),
        GetRefreshToken (run cfg db calls) later r.Token = .error .ErrNoRows) ∧
    (∀ (db : Store) (t : String) (now1 now2 : Time) (env1 env : Env),
      (handlerLogout env1 now1 db (some ⟨t⟩)).1.status = StatusNoContent →
      handlerRefresh env cfg now2 (handlerLogout env1 now1 db (some ⟨t⟩)).2 (some ⟨t⟩) =
        (respondWithError StatusUnauthorized "invalid refresh token",
          (handlerLogout env1 now1 db (some ⟨t⟩)).2)) := by
  constructor
  · intro db r hpk hmem hrev calls later
    apply revoked_lookup
    apply revoked_of_run
    refine ⟨⟨r, hmem, rfl⟩, ?_⟩
    intro r1 hm1 ht1
    have := List.inj_on_of_nodup_map hpk hm1 hmem ht1
    rw [this]
    exact hrev
  · intro db t now1 now2 env1 env hst
    by_cases ht : t = ""
    · subst ht
      have hbad : (handlerLogout env1 now1 db (some ⟨""⟩)).1.status = StatusBadRequest := rfl
      rw [hbad] at hst
      exact absurd hst (by decide)
    · have hb : (t == "") = false := by simpa using ht
      have hexec : env1.execErr = none := by
        cases hx : env1.execErr with
        | none => rfl
        | some e =>
          have h500 : (handlerLogout env1 now1 db (some ⟨t⟩)).1.status =
              StatusInternalServerError := by
            simp only [handlerLogout, hb, Bool.false_eq_true, if_false, hx, RevokeRefreshToken]
            rfl
          rw [h500] at hst
          exact absurd hst (by decide)
      have hlog : (handlerLogout env1 now1 db (some ⟨t⟩)).2 =
          { users := db.users,
            refresh_tokens := db.refresh_tokens.map (fun r =>
              if r.Token == t then { r with RevokedAt := some now1, UpdatedAt := now1 }
              else r) } := by
        simp only [handlerLogout, hb, Bool.false_eq_true, if_false, hexec,
          RevokeRefreshToken_eq]
      have hget : GetRefreshToken (handlerLogout env1 now1 db (some ⟨t⟩)).2 now2 t =
          .error .ErrNoRows := by
        rw [hlog, GetRefreshToken_eq_error]
        exact ⟨rfl, revoked_rows_invalid db.refresh_tokens now1 now2 t⟩
      simp only [handlerRefresh, hb, Bool.false_eq_true, if_false, hget]

/-- In `revokedStore` the row `old-token` is revoked and stays unusable after
a refresh and a login; and logging `old-token` out of `sampleStore` makes the
refresh that follows answer 401. -/
theorem revocation_is_one_way_witness :
    revokedStore.primaryKey ∧
      GetRefreshToken (run sampleCfg revokedStore sampleCalls) 8 "old-token" =
        .error .ErrNoRows ∧
      (handlerLogout sampleEnv 5 sampleStore (some ⟨"old-token"⟩)).1.status =
        StatusNoContent ∧
      handlerRefresh sampleEnv sampleCfg 6
          (handlerLogout sampleEnv 5 sampleStore (some ⟨"old-token"⟩)).2
          (some ⟨"old-token"⟩) =
        (respondWithError StatusUnauthorized "invalid refresh token",
          (handlerLogout sampleEnv 5 sampleStore (some ⟨"old-token"⟩)).2) :=
  ⟨by decide,
    (revocation_is_one_way sampleCfg).1 revokedStore
      { sampleToken with RevokedAt := some 5, UpdatedAt := 5 } (by decide) (by decide)
      (by decide) sampleCalls 8,
    by decide,
    (revocation_is_one_way sampleCfg).2 sampleStore "old-token" 5 6 sampleEnv sampleEnv
      (by decide)⟩

/-! ## Login -/

/-- C5. Login enumeration resistance. In every store, a login whose
normalised email belongs to no user and a login whose email is found but whose
password fails `CheckPasswordHash` against the stored hash both answer 401
with the body "incorrect email or password" and leave the store unchanged, so
the two responses are equal. -/
theorem login_enumeration_resistance (env1 env2 : Env) (cfg : apiConfig) (now1 now2 : Time)
    (db : Store) (e1 p1 e2 p2 : String) (u : User) (err : Error)
    (habsent : ∀ v ∈ db.users, v.Email ≠ TrimSpace (ToLower env1.unicodeToLower e1))
    (hpresent : GetUserByEmail db (TrimSpace (ToLower env2.unicodeToLower e2)) = .ok u)
    (hwrong : env2.CheckPasswordHash p2 u.Password = .error err) :
    handlerLogin env1 cfg now1 db (some ⟨p1, e1⟩) =
        (respondWithError StatusUnauthorized "incorrect email or password", db) ∧
      handlerLogin env2 cfg now2 db (some ⟨p2, e2⟩) =
        (respondWithError StatusUnauthorized "incorrect email or password", db) ∧
      (handlerLogin env1 cfg now1 db (some ⟨p1, e1⟩)).1 =
        (handlerLogin env2 cfg now2 db (some ⟨p2, e2⟩)).1 := by
  have h1 : handlerLogin env1 cfg now1 db (some ⟨p1, e1⟩) =
      (respondWithError StatusUnauthorized "incorrect email or password", db) := by
    have hnone : db.users.find? (fun v => v.Email == TrimSpace (ToLower env1.unicodeToLower e1)) =
        none := by
      rw [List.find?_eq_none]
      intro v hv
      simpa using habsent v hv
    simp only [handlerLogin, GetUserByEmail, hnone]
  have h2 : handlerLogin env2 cfg now2 db (some ⟨p2, e2⟩) =
      (respondWithError StatusUnauthorized "incorrect email or password", db) := by
    simp only [handlerLogin, hpresent, hwrong]
  exact ⟨h1, h2, by rw [h1, h2]⟩

/-- The sample store has no user `nobody@x.com`, has the user `a@b.com`, and
`wrongpassword` does not match the stored hash; both logins answer alike. -/
theorem login_enumeration_resistance_witness :
    (∀ v ∈ sampleStore.users,
        v.Email ≠ TrimSpace (ToLower sampleEnv.unicodeToLower "nobody@x.com")) ∧
      GetUserByEmail sampleStore (TrimSpace (ToLower sampleEnv.unicodeToLower "a@b.com")) =
        .ok sampleUser ∧
      sampleEnv.CheckPasswordHash "wrongpassword" sampleUser.Password =
        .error (.other "mismatch") ∧
      (handlerLogin sampleEnv sampleCfg 5 sampleStore (some ⟨"anything", "nobody@x.com"⟩)).1 =
        (handlerLogin sampleEnv sampleCfg 5 sampleStore (some ⟨"wrongpassword", "a@b.com"⟩)).1 :=
  ⟨by decide, by decide, by decide,
    (login_enumeration_resistance sampleEnv sampleEnv sampleCfg 5 5 sampleStore "nobody@x.com"
      "anything" "a@b.com" "wrongpassword" sampleUser (.other "mismatch") (by decide) (by decide)
      (by decide)).2.2⟩

/-! ## Registration -/

/-- A string has at least as many bytes as characters. -/
theorem length_le_len (s : String) : s.length ≤ len s := by
  obtain ⟨l⟩ := s
  show l.length ≤ String.utf8ByteSize.go l
  induction l with
  | nil => exact Nat.le_refl 0
  | cons c cs ih =>
    have hc := Char.utf8Size_pos c
    simp only [List.length_cons, String.utf8ByteSize.go]
    omega

/-- C6, as stated, fails. The password of five letters "ééééé" is shorter
than 8 characters but 10 bytes long; `handlerRegister` accepts it, answers 201
and creates the user. -/
theorem register_accepts_short_multibyte_password :
    "ééééé".length = 5 ∧ len "ééééé" = 10 ∧
      (handlerRegister sampleEnv 5 { users := [], refresh_tokens := [] }
        (some ⟨"a@b.com", "ééééé"⟩)).1.status = StatusCreated ∧
      (handlerRegister sampleEnv 5 { users := [], refresh_tokens := [] }
        (some ⟨"a@b.com", "ééééé"⟩)).2.users =
        [{ ID := 7, CreatedAt := 5, UpdatedAt := 5, Email := "a@b.com",
           Password := "hash:ééééé" }] := by
  decide

/-- C6, amended. For every email and every password whose UTF-8 encoding is
shorter than 8 bytes, `handlerRegister` answers 400 "invalid email or password
too short" and leaves the store unchanged. A password of 8 or more bytes, in
particular one of 8 or more characters, sent with an email that is not blank,
is not answered with 400. -/
theorem register_password_length (env : Env) (now : Time) (db : Store)
    (email password : String) :
    (len password < 8 →
      handlerRegister env now db (some ⟨email, password⟩) =
        (respondWithError StatusBadRequest "invalid email or password too short", db)) ∧
    (8 ≤ len password → TrimSpace (ToLower env.unicodeToLower email) ≠ "" →
      (handlerRegister env now db (some ⟨email, password⟩)).1.status ≠ StatusBadRequest) ∧
    (8 ≤ password.length → TrimSpace (ToLower env.unicodeToLower email) ≠ "" →
      (handlerRegister env now db (some ⟨email, password⟩)).1.status ≠ StatusBadRequest) := by
  have hlong : 8 ≤ len password → TrimSpace (ToLower env.unicodeToLower email) ≠ "" →
      (handlerRegister env now db (some ⟨email, password⟩)).1.status ≠ StatusBadRequest := by
    intro hlen hemail
    have hb : (TrimSpace (ToLower env.unicodeToLower email) == "" ||
        decide (len password < 8)) = false := by
      simp only [Bool.or_eq_false_iff, beq_eq_false_iff_ne, ne_eq, decide_eq_false_iff_not,
        not_lt]
      exact ⟨hemail, hlen⟩
    simp only [handlerRegister, hb, Bool.false_eq_true, if_false]
    have h409 : StatusConflict ≠ StatusBadRequest := by decide
    have h500 : StatusInternalServerError ≠ StatusBadRequest := by decide
    have h201 : StatusCreated ≠ StatusBadRequest := by decide
    split
    · exact h409
    · split
      · exact h500
      · split
        · exact h500
        · split
          · exact h500
          · exact h201
  refine ⟨?_, hlong, fun h => hlong (le_trans h (length_le_len password))⟩
  intro hshort
  have hb : (TrimSpace (ToLower env.unicodeToLower email) == "" ||
      decide (len password < 8)) = true := by
    simp only [Bool.or_eq_true, decide_eq_true_eq]
    exact Or.inr hshort
  simp only [handlerRegister, hb, if_true]

/-- The password "short" has 5 bytes and is rejected; "password1" has 9 and
is accepted. -/
theorem register_password_length_witness :
    len "short" < 8 ∧
      handlerRegister sampleEnv 5 sampleStore (some ⟨"c@d.com", "short"⟩) =
        (respondWithError StatusBadRequest "invalid email or password too short", sampleStore) ∧
      8 ≤ len "password1" ∧
      (handlerRegister sampleEnv 5 sampleStore (some ⟨"c@d.com", "password1"⟩)).1.status ≠
        StatusBadRequest :=
  ⟨by decide,
    (register_password_length sampleEnv 5 sampleStore "c@d.com" "short").1 (by decide),
    by decide,
    (register_password_length sampleEnv 5 sampleStore "c@d.com" "password1").2.1 (by decide)
      (by decide)⟩

/-- C8. Rotation fails safe-open. For a token `t` that `GetRefreshToken` finds
valid, whenever `handlerRefresh` answers anything but 200 (the user lookup, the
access token, the generation of the refresh token or `CreateRefreshToken`
failed) the store is unchanged and `GetRefreshToken t` still returns the same
row. In every run, either that holds, or the answer is 200 and the new refresh
token it carries is found valid in the store left behind: `t` is never revoked
without a valid successor. -/
theorem refresh_fails_safe_open (env : Env) (cfg : apiConfig) (now : Time) (db : Store)
    (t : String) (rt : RefreshToken) (hvalid : GetRefreshToken db now t = .ok rt) :
    ((handlerRefresh env cfg now db (some ⟨t⟩)).1.status ≠ StatusOK →
      (handlerRefresh env cfg now db (some ⟨t⟩)).2 = db ∧
      GetRefreshToken (handlerRefresh env cfg now db (some ⟨t⟩)).2 now t = .ok rt) ∧
    (((handlerRefresh env cfg now db (some ⟨t⟩)).2 = db ∧
        GetRefreshToken (handlerRefresh env cfg now db (some ⟨t⟩)).2 now t = .ok rt) ∨
      ∃ access tnew r,
        (handlerRefresh env cfg now db (some ⟨t⟩)).1 =
          respondWithJSON StatusOK (.refresh access tnew) ∧
        GetRefreshToken (handlerRefresh env cfg now db (some ⟨t⟩)).2 now tnew = .ok r) := by
  rcases handlerRefresh_cases env cfg now db (some ⟨t⟩) with hfail | hok
  · have hsame : (handlerRefresh env cfg now db (some ⟨t⟩)).2 = db ∧
        GetRefreshToken (handlerRefresh env cfg now db (some ⟨t⟩)).2 now t = .ok rt := by
      rw [hfail.2.2]
      exact ⟨rfl, hvalid⟩
    exact ⟨fun _ => hsame, Or.inl hsame⟩
  · obtain ⟨t0, rt0, u, access, newRT, ret, db1, db2, hbody, _, hget, _, _, _, hcreate, hrev,
      heq⟩ := hok
    have ht : t0 = t := by
      simp only [Option.some.injEq, RefreshParams.mk.injEq] at hbody
      exact hbody.symm
    subst ht
    have hpos : now < now + 60 * 24 * Hour := lt_add_of_pos_right now (by decide)
    rw [heq]
    rcases hrev with hrun | ⟨_, hsame⟩
    · obtain ⟨hfound, _⟩ := rotated_store_lookup db db1 db2 now t0 newRT u.ID rt0 ret hget
        hcreate (RevokeRefreshToken_eq_ok _ _ _ _ _ hrun).2
      exact ⟨fun hne => absurd rfl hne, Or.inr ⟨access, newRT, _, rfl, hfound now hpos⟩⟩
    · obtain ⟨hfound, _⟩ := inserted_store_lookup db db1 now t0 newRT u.ID rt0 ret hget
        hcreate
      rw [hsame]
      exact ⟨fun hne => absurd rfl hne, Or.inr ⟨access, newRT, _, rfl, hfound now hpos⟩⟩

/-- The token `old-token` is valid in the sample store; when the random source
repeats it, `CreateRefreshToken` is refused, the answer is 500, and the store
and the token are as before. -/
theorem refresh_fails_safe_open_witness :
    GetRefreshToken sampleStore 5 "old-token" = .ok sampleToken ∧
      (handlerRefresh collidingEnv sampleCfg 5 sampleStore (some ⟨"old-token"⟩)).1.status =
        StatusInternalServerError ∧
      (handlerRefresh collidingEnv sampleCfg 5 sampleStore (some ⟨"old-token"⟩)).2 =
        sampleStore ∧
      GetRefreshToken (handlerRefresh collidingEnv sampleCfg 5 sampleStore
        (some ⟨"old-token"⟩)).2 5 "old-token" = .ok sampleToken :=
  ⟨by decide, by decide,
    ((refresh_fails_safe_open collidingEnv sampleCfg 5 sampleStore "old-token" sampleToken
      (by decide)).1 (by decide)).1,
    ((refresh_fails_safe_open collidingEnv sampleCfg 5 sampleStore "old-token" sampleToken
      (by decide)).1 (by decide)).2⟩

/-! ## Tokens issued by login -/

/-- C9. When `handlerLogin` answers 200 at clock reading `now`, the user `u`
found for the normalised email is the one the tokens are issued for: the
access token is the result of `MakeJWT` for `u.ID` with a lifetime of 15
minutes (900 seconds), and the store differs from the one before by exactly
one row appended to `refresh_tokens`, keyed by the refresh token of the
response, with `user_id = u.ID`, `revoked_at` null and
`expires_at = now + 60 days` (5184000 seconds). That row is returned by
`GetRefreshToken` at every clock reading before `now + 60 days` and at none
from then on. -/
theorem login_issues_tokens (env : Env) (cfg : apiConfig) (now : Time) (db : Store)
    (email password : String)
    (hok : (handlerLogin env cfg now db (some ⟨password, email⟩)).1.status = StatusOK) :
    ∃ u access refreshToken,
      GetUserByEmail db (TrimSpace (ToLower env.unicodeToLower email)) = .ok u ∧
      env.MakeJWT u.ID cfg.jwtSecret (15 * Minute) = .ok access ∧
      15 * Minute = 900 * 1000000000 ∧
      60 * 24 * Hour = 5184000 * 1000000000 ∧
      (handlerLogin env cfg now db (some ⟨password, email⟩)).1 =
        respondWithJSON StatusOK (.login (toUserResponse u) access refreshToken) ∧
      (handlerLogin env cfg now db (some ⟨password, email⟩)).2 =
        { users := db.users,
          refresh_tokens := db.refresh_tokens ++
            [{ Token := refreshToken, UserID := u.ID, ExpiresAt := now + 60 * 24 * Hour,
               CreatedAt := now, UpdatedAt := now, RevokedAt := none }] } ∧
      (∀ r ∈ db.refresh_tokens, r.Token ≠ refreshToken) ∧
      (∀ later, later < now + 60 * 24 * Hour →
        GetRefreshToken (handlerLogin env cfg now db (some ⟨password, email⟩)).2 later
            refreshToken =
          .ok { Token := refreshToken, UserID := u.ID, ExpiresAt := now + 60 * 24 * Hour,
                CreatedAt := now, UpdatedAt := now, RevokedAt := none }) ∧
      (∀ later, now + 60 * 24 * Hour ≤ later →
        GetRefreshToken (handlerLogin env cfg now db (some ⟨password, email⟩)).2 later
            refreshToken = .error .ErrNoRows) := by
  rcases handlerLogin_cases env cfg now db (some ⟨password, email⟩) with hfail | hsucc
  · exact absurd hok hfail.1
  · obtain ⟨params, u, access, refreshToken, ret, db1, hbody, huser, _, hjwt, _, hcreate,
      heq⟩ := hsucc
    simp only [Option.some.injEq] at hbody
    subst hbody
    obtain ⟨hfresh, _, hdb1, _⟩ := CreateRefreshToken_eq_ok db now _ ret db1 hcreate
    have hins := find_inserted db.refresh_tokens
      { Token := refreshToken, UserID := u.ID, ExpiresAt := now + 60 * 24 * Hour,
        CreatedAt := now, UpdatedAt := now, RevokedAt := none }
    rw [heq]
    refine ⟨u, access, refreshToken, huser, hjwt, by decide, by decide, rfl, hdb1, hfresh,
      ?_, ?_⟩
    · intro later hlater
      rw [GetRefreshToken_eq_ok, hdb1]
      exact (hins later hfresh rfl).1 hlater
    · intro later hlater
      rw [GetRefreshToken_eq_error, hdb1]
      exact ⟨rfl, (hins later hfresh rfl).2 hlater⟩

/-- A login of `a@b.com` with the right password in the sample store answers
200 and appends the row of `new-token`, expiring 60 days after the clock
reading 5. -/
theorem login_issues_tokens_witness :
    (handlerLogin sampleEnv sampleCfg 5 sampleStore (some ⟨"password1", "a@b.com"⟩)).1.status =
        StatusOK ∧
      (handlerLogin sampleEnv sampleCfg 5 sampleStore (some ⟨"password1", "a@b.com"⟩)).2 =
        { users := [sampleUser],
          refresh_tokens := [sampleToken,
            { Token := "new-token", UserID := 7, ExpiresAt := 5184000000000005,
              CreatedAt := 5, UpdatedAt := 5, RevokedAt := none }] } ∧
      ∃ u access refreshToken,
        GetUserByEmail sampleStore (TrimSpace (ToLower sampleEnv.unicodeToLower "a@b.com")) =
          .ok u ∧
        sampleEnv.MakeJWT u.ID sampleCfg.jwtSecret (15 * Minute) = .ok access ∧
        (handlerLogin sampleEnv sampleCfg 5 sampleStore (some ⟨"password1", "a@b.com"⟩)).1 =
          respondWithJSON StatusOK (.login (toUserResponse u) access refreshToken) :=
  ⟨by decide, by decide,
    match login_issues_tokens sampleEnv sampleCfg 5 sampleStore "a@b.com" "password1"
        (by decide) with
    | ⟨u, access, refreshToken, h1, h2, _, _, h5, _⟩ => ⟨u, access, refreshToken, h1, h2, h5⟩⟩

/-! ## The value returned by `CreateRefreshToken` -/

/-- C10 at a concrete input. Inserting `new-token` for the user 7 into the
sample store succeeds and persists a row with `user_id = 7`, but the
`RefreshToken` returned carries the zero `UserID`: the field is never
assigned. Token, expiry and the unset `RevokedAt` agree with the parameters. -/
theorem CreateRefreshToken_returns_zero_UserID :
    CreateRefreshToken sampleStore 5 { Token := "new-token", UserID := 7, ExpiresAt := 1000 } =
      .ok ({ Token := "new-token", UserID := uuidNil, ExpiresAt := 1000, CreatedAt := 5,
             UpdatedAt := 5, RevokedAt := none },
           { users := [sampleUser],
             refresh_tokens := [sampleToken,
               { Token := "new-token", UserID := 7, ExpiresAt := 1000, CreatedAt := 5,
                 UpdatedAt := 5, RevokedAt := none }] }) ∧
      uuidNil ≠ (7 : UUID) := by
  decide

/-! ## The database URL -/

theorem isPrefixOf_append_self (sub rest : List Char) :
    sub.isPrefixOf (sub ++ rest) = true := by
  induction sub with
  | nil => simp [List.isPrefixOf]
  | cons c cs ih => simp [List.isPrefixOf, ih]

theorem hasInfix_of_isPrefixOf (l sub : List Char) (h : sub.isPrefixOf l = true) :
    hasInfix l sub = true := by
  cases l with
  | nil => simpa [hasInfix] using h
  | cons c cs => simp [hasInfix, h]

/-- A list that holds `sub` after any number of leading elements contains
`sub`. -/
theorem hasInfix_append (front sub rest : List Char) :
    hasInfix (front ++ (sub ++ rest)) sub = true := by
  induction front with
  | nil => exact hasInfix_of_isPrefixOf _ _ (isPrefixOf_append_self sub rest)
  | cons c cs ih =>
    rw [List.cons_append]
    simp only [hasInfix, Bool.or_eq_true]
    exact Or.inr ih

/-- Whatever separator is put after the URL, the URL followed by
`sslmode=require` contains `sslmode=`. -/
theorem Contains_appended (dbURL sep : String) :
    Contains (dbURL ++ sep ++ "sslmode=require") "sslmode=" = true := by
  have h := hasInfix_append (dbURL.data ++ sep.data) "sslmode=".data "require".data
  have hd : (dbURL ++ sep ++ "sslmode=require").data =
      (dbURL.data ++ sep.data) ++ ("sslmode=".data ++ "require".data) := by
    simp only [String.data_append]
    rfl
  unfold Contains
  rw [hd]
  exact h

/-- C11. For every database URL `u`, `ensureSSLModeRequire u` contains
`sslmode=` and starts with `u`. It is `u` itself when `u` already contains
`sslmode=`; otherwise it is `u` followed by `?sslmode=require` when `u` has no
`?`, and `u` followed by `&sslmode=require` when it has one. Applying the
function twice gives the same as applying it once. -/
theorem ensureSSLModeRequire_spec (u : String) :
    Contains (ensureSSLModeRequire u) "sslmode=" = true ∧
    (∃ t, ensureSSLModeRequire u = u ++ t) ∧
    (Contains u "sslmode=" = true → ensureSSLModeRequire u = u) ∧
    (Contains u "sslmode=" = false → Contains u "?" = false →
      ensureSSLModeRequire u = u ++ "?sslmode=require") ∧
    (Contains u "sslmode=" = false → Contains u "?" = true →
      ensureSSLModeRequire u = u ++ "&sslmode=require") ∧
    ensureSSLModeRequire (ensureSSLModeRequire u) = ensureSSLModeRequire u := by
  have hassoc : ∀ sep : String, u ++ sep ++ "sslmode=require" = u ++ (sep ++ "sslmode=require") :=
    fun sep => String.append_assoc u sep "sslmode=require"
  have hcontains : Contains (ensureSSLModeRequire u) "sslmode=" = true := by
    unfold ensureSSLModeRequire
    split
    · assumption
    · exact Contains_appended u _
  refine ⟨hcontains, ?_, ?_, ?_, ?_, ?_⟩
  · unfold ensureSSLModeRequire
    split
    · exact ⟨"", (String.append_empty u).symm⟩
    · exact ⟨_, hassoc _⟩
  · intro h
    simp only [ensureSSLModeRequire, h, if_true]
  · intro h hq
    simp only [ensureSSLModeRequire, h, hq, Bool.false_eq_true, if_false]
    exact hassoc "?"
  · intro h hq
    simp only [ensureSSLModeRequire, h, hq, Bool.false_eq_true, if_false, if_true]
    exact hassoc "&"
  · generalize ensureSSLModeRequire u = v at hcontains
    simp only [ensureSSLModeRequire, hcontains, if_true]

/-- The three cases of C11 on sample URLs: a URL without query, a URL
with a query, and a URL that already sets `sslmode=`. -/
theorem ensureSSLModeRequire_spec_witness :
    Contains "postgres://h/db" "sslmode=" = false ∧ Contains "postgres://h/db" "?" = false ∧
      ensureSSLModeRequire "postgres://h/db" = "postgres://h/db?sslmode=require" ∧
      Contains "postgres://h/db?a=1" "sslmode=" = false ∧
      Contains "postgres://h/db?a=1" "?" = true ∧
      ensureSSLModeRequire "postgres://h/db?a=1" = "postgres://h/db?a=1&sslmode=require" ∧
      Contains "postgres://h/db?sslmode=disable" "sslmode=" = true ∧
      ensureSSLModeRequire "postgres://h/db?sslmode=disable" =
        "postgres://h/db?sslmode=disable" :=
  ⟨by decide, by decide,
    (ensureSSLModeRequire_spec "postgres://h/db").2.2.2.1 (by decide) (by decide),
    by decide, by decide,
    (ensureSSLModeRequire_spec "postgres://h/db?a=1").2.2.2.2.1 (by decide) (by decide),
    by decide,
    (ensureSSLModeRequire_spec "postgres://h/db?sslmode=disable").2.2.1 (by decide)⟩

end Authentic
